import Mathlib

set_option maxRecDepth 40000

/-!
Verification of the coralogix-query-mcp core: a shallow embedding of the
query-dialect detector, query-context builder, retrying query executor and
response normalizer (src/utils/query-processor.ts, src/utils/coralogix-client.ts,
src/utils/response-processor.ts, src/tools/query-logs.ts, src/config/limits.ts),
with theorems checking the design document's claims against it.

JavaScript numbers are modelled as Int (counts and lengths as Nat where the
source value is a length and hence non-negative); JS Date values as
Option Int (epoch milliseconds, none = Invalid Date, whose time value is NaN);
fallible code as Except. The ambient Date parser (the ECMAScript
"new Date(string)" time-value computation) is passed in as a parameter
parse : String -> Option Int, and Date#toISOString's rendering of a valid
date as fmt : Int -> String, so nothing about the environment is baked in.
-/

deriving instance DecidableEq for Except

namespace CoralogixMcp

/-- JS regex whitespace class as it matters here (the ASCII part of \s):
space, tab, newline, carriage return, vertical tab, form feed. -/
def isJsSpace (c : Char) : Bool :=
  c == ' ' || c == '\t' || c == '\n' || c == '\r' || c == '\x0b' || c == '\x0c'

/-- JS regex word character \w: [A-Za-z0-9_]. -/
def isWordChar (c : Char) : Bool := c.isAlphanum || c == '_'

/-- Lowercasing as JS String.prototype.toLowerCase acts on ASCII. -/
def lcChar (c : Char) : Char := c.toLower

def lowerList (l : List Char) : List Char := l.map lcChar

def trimLeft (l : List Char) : List Char := l.dropWhile isJsSpace

def trimRight (l : List Char) : List Char := (l.reverse.dropWhile isJsSpace).reverse

/-- JS String.prototype.trim over the character list. -/
def trimList (l : List Char) : List Char := trimRight (trimLeft l)

/-- JS String.prototype.trim. -/
def jsTrim (s : String) : String := ⟨trimList s.data⟩

/-- Does the text start with the pattern (case-sensitive)? -/
def startsWithChars : List Char → List Char → Bool
  | [], _ => true
  | _ :: _, [] => false
  | p :: ps, c :: cs => p == c && startsWithChars ps cs

/-- Does the text start with the pattern, case-insensitively (regex i flag)? -/
def startsWithCI : List Char → List Char → Bool
  | [], _ => true
  | _ :: _, [] => false
  | p :: ps, c :: cs => lcChar p == lcChar c && startsWithCI ps cs

/-- JS String.prototype.includes over character lists. -/
def listContains (needle : List Char) : List Char → Bool
  | [] => startsWithChars needle []
  | c :: t => startsWithChars needle (c :: t) || listContains needle t

/-- JS String.prototype.includes. -/
def strContains (hay needle : String) : Bool := listContains needle.data hay.data

/-! ## Dialect detection
Source: QueryProcessor.detectQuerySyntax (src/utils/query-processor.ts, 8-30).
Each regex of the dataPrimePatterns array is modelled as a character-list
matcher. The regexes involved never need backtracking (each repeated class is
disjoint from what follows it), so greedy scanning is exact. -/

/-- The query's two dialects. Source type: QuerySyntax ("lucene" | "dataprime"). -/
inductive Dialect
  | lucene
  | dataprime
deriving DecidableEq

/-- Match of /\|\s*kw\b/i at the head of the text: a pipe, optional spaces,
the keyword, then a word boundary (the keywords end in word characters, so
the boundary holds exactly when no word character follows). -/
def pipeOpAt (kw : List Char) : List Char → Bool
  | [] => false
  | c :: rest =>
    c == '|' &&
      (let r := rest.dropWhile isJsSpace
       startsWithCI kw r &&
         (match (r.drop kw.length).head? with
          | some d => !isWordChar d
          | none => true))

/-- Match of /\|\s*kw\b/i anywhere in the text. -/
def pipeOpMatch (kw : List Char) (t : List Char) : Bool := t.tails.any (pipeOpAt kw)

/-- Match of /\s+kw\s+/i at the head of the text: scanning every position
makes the single leading space equivalent to the regex's \s+. -/
def relOpAt (kw : List Char) : List Char → Bool
  | [] => false
  | c :: rest =>
    isJsSpace c && startsWithCI kw rest &&
      (match (rest.drop kw.length).head? with
       | some d => isJsSpace d
       | none => false)

/-- Match of /\s+kw\s+/i anywhere in the text. -/
def relOpMatch (kw : List Char) (t : List Char) : Bool := t.tails.any (relOpAt kw)

/-- Match of /\bsource\s+\w+\s*\|/i at the head of the text (the word boundary
before "source" is checked by the caller). -/
def sourceAt (s : List Char) : Bool :=
  startsWithCI "source".data s &&
    (match s.drop 6 with
     | c :: rest =>
       isJsSpace c &&
         (match rest.dropWhile isJsSpace with
          | d :: r2 =>
            isWordChar d &&
              (match ((r2.dropWhile isWordChar).dropWhile isJsSpace).head? with
               | some e => e == '|'
               | none => false)
          | [] => false)
     | [] => false)

/-- Scan for /\bsource\s+\w+\s*\|/i; the flag carries whether the previous
character was a word character (for the \b). -/
def sourcePipeAux (prevWord : Bool) : List Char → Bool
  | [] => false
  | c :: rest => (!prevWord && sourceAt (c :: rest)) || sourcePipeAux (isWordChar c) rest

/-- Match of /\bsource\s+\w+\s*\|/i anywhere in the text. -/
def sourcePipeMatch (t : List Char) : Bool := sourcePipeAux false t

/-- The dataPrimePatterns array, in source order. -/
def dataPrimePatterns : List (List Char → Bool) :=
  [sourcePipeMatch,
   pipeOpMatch "filter".data,
   pipeOpMatch "limit".data,
   pipeOpMatch "sort".data,
   pipeOpMatch "choose".data,
   pipeOpMatch "extract".data,
   pipeOpMatch "groupby".data,
   pipeOpMatch "summarize".data,
   relOpMatch "contains".data,
   relOpMatch "startswith".data,
   relOpMatch "endswith".data]

/-- Source: QueryProcessor.detectQuerySyntax — "dataprime" when any pattern of
dataPrimePatterns matches, else "lucene". -/
def detectQueryDialect (query : String) : Dialect :=
  if dataPrimePatterns.any (fun p => p query.data) then .dataprime else .lucene

/-- The condition the design document states for dialect detection: a pipe
followed by one of the seven stage keywords (case-insensitive). -/
def hasPipeOperatorKeyword (query : String) : Bool :=
  pipeOpMatch "filter".data query.data ||
  pipeOpMatch "limit".data query.data ||
  pipeOpMatch "sort".data query.data ||
  pipeOpMatch "groupby".data query.data ||
  pipeOpMatch "summarize".data query.data ||
  pipeOpMatch "choose".data query.data ||
  pipeOpMatch "extract".data query.data

/-! ## Limits
Source: src/config/limits.ts. All are JS numbers; the ones only ever used as
list lengths or counts are Nat here, the ones that meet possibly negative
caller input are Int. -/

namespace MCP_LIMITS

def DEFAULT_LIMIT : Int := 20
def MAX_LIMIT : Int := 50
def MIN_LIMIT : Int := 1
def MAX_MESSAGE_LENGTH : Nat := 1000
def MAX_STACK_TRACE_LINES : Nat := 5
def MAX_ERROR_CONTEXT : Nat := 300
def MAX_TIME_WINDOW_HOURS : Int := 24
def MAX_PAGES : Int := 100
def REQUEST_TIMEOUT_MS : Nat := 30000
def MAX_RETRIES : Nat := 3
def RETRY_DELAY_MS : Nat := 1000

end MCP_LIMITS

/-- The timeframe enum of the query_logs input schema. -/
inductive Timeframe
  | m15
  | h1
  | h6
  | h24
  | custom
deriving DecidableEq

/-- Source: TIMEFRAME_MAP (src/config/limits.ts 40-45), in milliseconds. The
source map has no "custom" entry and buildQueryContext reads the map only for
non-custom timeframes, so the value given to custom here is never read. -/
def TIMEFRAME_MAP : Timeframe → Int
  | .m15 => 15 * 60 * 1000
  | .h1 => 60 * 60 * 1000
  | .h6 => 6 * 60 * 60 * 1000
  | .h24 => 24 * 60 * 60 * 1000
  | .custom => 0

/-- Source type: QueryLogsInput (src/types/index.ts). -/
structure QueryLogsInput where
  query : String
  timeframe : Option Timeframe := none
  startDate : Option String := none
  endDate : Option String := none
  limit : Option Int := none
  page : Option Int := none
deriving DecidableEq

/-- JS "x || d" on an optional number: undefined and 0 are falsy. -/
def jsOrIntOpt (x : Option Int) (d : Int) : Int :=
  match x with
  | some v => if v = 0 then d else v
  | none => d

/-- Subtraction of JS Date time values; NaN (none) is absorbing. -/
def jsSubOpt : Option Int → Option Int → Option Int
  | some a, some b => some (a - b)
  | _, _ => none

/-- JS strict "greater than" on a possibly-NaN left operand: false on NaN. -/
def jsGtOpt : Option Int → Int → Bool
  | some v, m => m < v
  | none, _ => false

/-- JS strict "less than" on a possibly-NaN left operand: false on NaN. -/
def jsLtOpt : Option Int → Int → Bool
  | some v, m => v < m
  | none, _ => false

/-- The distinct failure points of the pipeline; the source throws Error with
a message at each of them, modelled by which throw fired. -/
inductive QueryLogsError
  | invalidQuery
  | missingCustomDates
  | badDateFormat
  | rangeTooWide
  | pageOutOfRange
  | invalidTimeValue
  | transportFailure
  | httpError (status : Nat)
  | malformedResponse
deriving DecidableEq

/-- Source type: QueryContext (src/types/index.ts). Source field names:
detectedSyntax for detectedDialect, timeRange.start/end for timeStart/timeEnd. -/
structure QueryContext where
  originalQuery : String
  detectedDialect : Dialect
  timeStart : Option Int
  timeEnd : Option Int
  limit : Int
  includeArchive : Bool
deriving DecidableEq

/-- The custom/default arm of buildQueryContext's time-range resolution
(lines 43-50): explicit dates are used only when both are truthy (non-empty)
strings, else the 1-hour default window applies. -/
def resolveCustomOrDefault (parse : String → Option Int) (now : Int)
    (input : QueryLogsInput) : Option Int × Option Int :=
  match input.startDate, input.endDate with
  | some s, some e =>
    if s ≠ "" ∧ e ≠ "" then (parse s, parse e)
    else (some (now - TIMEFRAME_MAP .h1), some now)
  | _, _ => (some (now - TIMEFRAME_MAP .h1), some now)

/-- Lines 36-50 of buildQueryContext: resolve (startTime, endTime); now is the
build-time clock, parse models the ECMAScript new Date(string) time value. -/
def resolveTimeRange (parse : String → Option Int) (now : Int)
    (input : QueryLogsInput) : Option Int × Option Int :=
  match input.timeframe with
  | some tf =>
    if tf ≠ .custom then (some (now - TIMEFRAME_MAP tf), some now)
    else resolveCustomOrDefault parse now input
  | none => resolveCustomOrDefault parse now input

/-- Source: QueryProcessor.shouldIncludeArchive (82-91): include the archive
when the start time is more than 24 hours before now (an Invalid-Date start
compares false). -/
def shouldIncludeArchive (now : Int) (startTime : Option Int) : Bool :=
  jsLtOpt startTime (now - 24 * 60 * 60 * 1000)

/-- The limit-clamping expression that buildQueryContext (60-64) and
validatePagination (158-162) both contain verbatim:
Math.min(Math.max(limit || DEFAULT_LIMIT, MIN_LIMIT), MAX_LIMIT). -/
def resolvedLimit (limit : Option Int) : Int :=
  min (max (jsOrIntOpt limit MCP_LIMITS.DEFAULT_LIMIT) MCP_LIMITS.MIN_LIMIT)
    MCP_LIMITS.MAX_LIMIT

/-- Source: QueryProcessor.buildQueryContext (35-76); its only throw (the
time-range check) is the rangeTooWide error. -/
def buildQueryContext (parse : String → Option Int) (now : Int)
    (input : QueryLogsInput) : Except QueryLogsError QueryContext :=
  let r := resolveTimeRange parse now input
  if jsGtOpt (jsSubOpt r.2 r.1) (MCP_LIMITS.MAX_TIME_WINDOW_HOURS * 60 * 60 * 1000) then
    .error .rangeTooWide
  else
    .ok { originalQuery := input.query
          detectedDialect := detectQueryDialect input.query
          timeStart := r.1
          timeEnd := r.2
          limit := resolvedLimit input.limit
          includeArchive := shouldIncludeArchive now r.1 }

/-- The pair validatePagination returns. -/
structure PageLimit where
  page : Int
  limit : Int
deriving DecidableEq

/-- Source: QueryProcessor.validatePagination (154-169). -/
def validatePagination (page limit : Option Int) : Except QueryLogsError PageLimit :=
  let validatedPage := max 1 (jsOrIntOpt page 1)
  let validatedLimit := resolvedLimit limit
  if validatedPage > MCP_LIMITS.MAX_PAGES then .error .pageOutOfRange
  else .ok { page := validatedPage, limit := validatedLimit }

/-- Source: QueryProcessor.calculateOffset (147-149). -/
def calculateOffset (page limit : Int) : Int := max 0 ((page - 1) * limit)

/-- Source: QueryProcessor.optimizeLuceneQuery (107-128). -/
def optimizeLuceneQuery (query : String) : String :=
  let optimized := jsTrim query
  if optimized = "*" ∨ optimized = "" then optimized
  else if !strContains optimized ":" && !strContains optimized "(" &&
      !strContains optimized "\"" then
    "\"" ++ optimized ++ "\""
  else optimized

/-- Source: QueryProcessor.optimizeDataPrimeQuery (133-142). -/
def optimizeDataPrimeQuery (query : String) : String :=
  let optimized := jsTrim query
  if !listContains "| limit".data (lowerList optimized.data) then
    optimized ++ " | limit " ++ toString MCP_LIMITS.MAX_LIMIT
  else optimized

/-- Source: QueryProcessor.optimizeQuery (96-102). -/
def optimizeQuery (query : String) (dialect : Dialect) : String :=
  match dialect with
  | .lucene => optimizeLuceneQuery query
  | .dataprime => optimizeDataPrimeQuery query

/-! ## Claims C1, C2, C4 -/

/-- C1 counterexample: a requested limit of 0 is falsy in JS, so the code
resolves it to the default 20, while the claimed clamp(0, 1, 50) is 1. -/
theorem c1_limit_zero_counterexample :
    validatePagination (some 1) (some 0) = .ok { page := 1, limit := 20 } ∧
    min (max (0 : Int) 1) 50 = 1 := by
  exact ⟨by decide, by decide⟩

/-- C1 amended: both call sites (buildQueryContext and validatePagination)
resolve the limit to clamp(L, 1, 50) with L the requested limit when it is
provided and non-zero, else the default 20; a requested 200 resolves to 50,
but a requested 0 is treated as absent and resolves to 20, not to the
minimum 1; the resolved limit always lies in [1, 50]. -/
theorem c1_limit_resolution (parse : String → Option Int) (now : Int)
    (input : QueryLogsInput) (page limit : Option Int) (r : PageLimit)
    (ctx : QueryContext)
    (hv : validatePagination page limit = .ok r)
    (hb : buildQueryContext parse now input = .ok ctx) :
    r.limit = resolvedLimit limit ∧
    ctx.limit = resolvedLimit input.limit ∧
    (∀ v : Int, v ≠ 0 → resolvedLimit (some v) = min (max v 1) 50) ∧
    resolvedLimit none = 20 ∧
    resolvedLimit (some 0) = 20 ∧
    resolvedLimit (some 200) = 50 ∧
    1 ≤ resolvedLimit limit ∧ resolvedLimit limit ≤ 50 := by
  refine ⟨?_, ?_, ?_, by decide, by decide, by decide, ?_, ?_⟩
  · simp only [validatePagination] at hv
    split at hv
    · cases hv
    · cases hv; rfl
  · simp only [buildQueryContext] at hb
    split at hb
    · cases hb
    · cases hb; rfl
  · intro v hv0
    simp [resolvedLimit, jsOrIntOpt, hv0, MCP_LIMITS.DEFAULT_LIMIT,
      MCP_LIMITS.MIN_LIMIT, MCP_LIMITS.MAX_LIMIT]
  · exact le_min (le_max_right _ _) (by norm_num [MCP_LIMITS.MIN_LIMIT, MCP_LIMITS.MAX_LIMIT])
  · exact min_le_right _ _

/-- C1 witness: the amended statement applied at concrete inputs. -/
theorem c1_limit_witness : resolvedLimit (some 0) = 20 :=
  (c1_limit_resolution (fun _ => none) 0 { query := "q" } (some 1) (some 200)
    { page := 1, limit := 50 }
    { originalQuery := "q", detectedDialect := .lucene,
      timeStart := some (-3600000), timeEnd := some 0, limit := 20,
      includeArchive := false }
    (by decide) (by decide)).2.2.2.2.1

/-- C2 counterexample: "a contains b" contains no pipe followed by a stage
keyword, yet detection classifies it as dataprime (the relation-keyword
patterns also fire), refuting "lucene for every other string". -/
theorem c2_dialect_counterexample :
    detectQueryDialect "a contains b" = .dataprime ∧
    hasPipeOperatorKeyword "a contains b" = false := by
  exact ⟨by decide, by decide⟩

/-- C2 amended: detection returns dataprime exactly when one of the eleven
source patterns matches — the seven pipe-keyword forms the claim lists, the
"source word |" form, or a whitespace-delimited contains/startswith/endswith
relation keyword — and lucene otherwise; in particular the claim's forward
direction (a pipe followed by a stage keyword implies dataprime) holds. -/
theorem c2_dialect_characterization (q : String) :
    (detectQueryDialect q = .dataprime ↔
      (sourcePipeMatch q.data ||
       (pipeOpMatch "filter".data q.data ||
        (pipeOpMatch "limit".data q.data ||
         (pipeOpMatch "sort".data q.data ||
          (pipeOpMatch "choose".data q.data ||
           (pipeOpMatch "extract".data q.data ||
            (pipeOpMatch "groupby".data q.data ||
             (pipeOpMatch "summarize".data q.data ||
              (relOpMatch "contains".data q.data ||
               (relOpMatch "startswith".data q.data ||
                relOpMatch "endswith".data q.data)))))))))) = true) ∧
    (hasPipeOperatorKeyword q = true → detectQueryDialect q = .dataprime) := by
  have hmain : detectQueryDialect q = .dataprime ↔
      (sourcePipeMatch q.data ||
       (pipeOpMatch "filter".data q.data ||
        (pipeOpMatch "limit".data q.data ||
         (pipeOpMatch "sort".data q.data ||
          (pipeOpMatch "choose".data q.data ||
           (pipeOpMatch "extract".data q.data ||
            (pipeOpMatch "groupby".data q.data ||
             (pipeOpMatch "summarize".data q.data ||
              (relOpMatch "contains".data q.data ||
               (relOpMatch "startswith".data q.data ||
                relOpMatch "endswith".data q.data)))))))))) = true := by
    unfold detectQueryDialect dataPrimePatterns
    simp only [List.any_cons, List.any_nil, Bool.or_false]
    split <;> rename_i h
    · simpa using h
    · constructor
      · intro hco; cases hco
      · intro hco; exact absurd hco h
  refine ⟨hmain, fun h => hmain.mpr ?_⟩
  simp only [hasPipeOperatorKeyword, Bool.or_eq_true] at h
  simp only [Bool.or_eq_true]
  tauto

/-- C4: context building fails with the range error exactly when the resolved
end minus start exceeds 24 hours in milliseconds (NaN-aware: an Invalid-Date
endpoint never trips the check), and this single check applies after every
derivation of the range; on success the context carries exactly the resolved
pair and its span does not exceed the bound. -/
theorem c4_range_check (parse : String → Option Int) (now : Int)
    (input : QueryLogsInput) :
    (buildQueryContext parse now input = .error .rangeTooWide ↔
      jsGtOpt (jsSubOpt (resolveTimeRange parse now input).2
          (resolveTimeRange parse now input).1)
        (MCP_LIMITS.MAX_TIME_WINDOW_HOURS * 60 * 60 * 1000) = true) ∧
    (∀ ctx, buildQueryContext parse now input = .ok ctx →
      ctx.timeStart = (resolveTimeRange parse now input).1 ∧
      ctx.timeEnd = (resolveTimeRange parse now input).2 ∧
      jsGtOpt (jsSubOpt ctx.timeEnd ctx.timeStart)
        (MCP_LIMITS.MAX_TIME_WINDOW_HOURS * 60 * 60 * 1000) = false) := by
  simp only [buildQueryContext]
  split <;> rename_i h
  · refine ⟨by simpa using h, ?_⟩
    intro ctx hc; cases hc
  · refine ⟨?_, ?_⟩
    · constructor
      · intro hco; cases hco
      · intro hco; exact absurd hco h
    · intro ctx hc; cases hc
      exact ⟨rfl, rfl, by simpa using h⟩

/-! ## String lemmas for the optimizer -/

theorem dropWhile_space_head (l : List Char) :
    ∀ c r, l.dropWhile isJsSpace = c :: r → isJsSpace c = false := by
  induction l with
  | nil => intro c r h; cases h
  | cons a t ih =>
    intro c r h
    by_cases ha : isJsSpace a
    · rw [List.dropWhile_cons, if_pos ha] at h
      exact ih c r h
    · rw [List.dropWhile_cons, if_neg ha] at h
      cases h
      exact Bool.eq_false_iff.mpr ha

theorem dropWhile_space_head? (l : List Char) :
    ∀ c, (l.dropWhile isJsSpace).head? = some c → isJsSpace c = false := by
  intro c h
  cases hd : l.dropWhile isJsSpace with
  | nil => rw [hd] at h; cases h
  | cons a r =>
    rw [hd] at h
    cases h
    exact dropWhile_space_head l c r hd

theorem dropWhile_space_prefix (l : List Char) :
    ∃ s, l = s ++ l.dropWhile isJsSpace := by
  induction l with
  | nil => exact ⟨[], rfl⟩
  | cons a t ih =>
    by_cases ha : isJsSpace a
    · obtain ⟨s, hs⟩ := ih
      refine ⟨a :: s, ?_⟩
      rw [List.dropWhile_cons, if_pos ha, List.cons_append, ← hs]
    · exact ⟨[], by rw [List.dropWhile_cons, if_neg ha]; rfl⟩

theorem trimRight_extends (l : List Char) : ∃ s, l = trimRight l ++ s := by
  obtain ⟨s, hs⟩ := dropWhile_space_prefix l.reverse
  refine ⟨s.reverse, ?_⟩
  have := congrArg List.reverse hs
  rw [List.reverse_reverse, List.reverse_append] at this
  exact this

theorem trimRight_head? (l : List Char) :
    ∀ c, (trimRight l).head? = some c → l.head? = some c := by
  intro c h
  obtain ⟨s, hs⟩ := trimRight_extends l
  rw [hs, List.head?_append_of_ne_nil]
  · exact h
  · intro hnil; rw [hnil] at h; cases h

theorem trimRight_getLast? (l : List Char) :
    ∀ c, (trimRight l).getLast? = some c → isJsSpace c = false := by
  intro c h
  unfold trimRight at h
  rw [← List.head?_reverse, List.reverse_reverse] at h
  exact dropWhile_space_head? l.reverse c h

theorem trimList_head? (l : List Char) :
    ∀ c, (trimList l).head? = some c → isJsSpace c = false := by
  intro c h
  exact dropWhile_space_head? l c (trimRight_head? (trimLeft l) c h)

theorem trimList_getLast? (l : List Char) :
    ∀ c, (trimList l).getLast? = some c → isJsSpace c = false :=
  fun c h => trimRight_getLast? (trimLeft l) c h

theorem trimLeft_eq_self (l : List Char)
    (h : ∀ c, l.head? = some c → isJsSpace c = false) : trimLeft l = l := by
  cases l with
  | nil => rfl
  | cons a t =>
    have := h a rfl
    unfold trimLeft
    rw [List.dropWhile_cons, if_neg (by simp [this])]

theorem trimRight_eq_self (l : List Char)
    (h : ∀ c, l.getLast? = some c → isJsSpace c = false) : trimRight l = l := by
  unfold trimRight
  have hrev : l.reverse.dropWhile isJsSpace = l.reverse := by
    apply trimLeft_eq_self
    intro c hc
    rw [List.head?_reverse] at hc
    exact h c hc
  rw [hrev, List.reverse_reverse]

theorem trimList_eq_self (l : List Char)
    (hh : ∀ c, l.head? = some c → isJsSpace c = false)
    (hl : ∀ c, l.getLast? = some c → isJsSpace c = false) : trimList l = l := by
  unfold trimList
  rw [trimLeft_eq_self l hh, trimRight_eq_self l hl]

theorem trimList_idem (l : List Char) : trimList (trimList l) = trimList l :=
  trimList_eq_self _ (trimList_head? l) (trimList_getLast? l)

theorem jsTrim_jsTrim (s : String) : jsTrim (jsTrim s) = jsTrim s := by
  simp [jsTrim, trimList_idem]

theorem listContains_append_left (n a b : List Char)
    (h : listContains n b = true) : listContains n (a ++ b) = true := by
  induction a with
  | nil => simpa
  | cons c t ih =>
    rw [List.cons_append]
    unfold listContains
    rw [ih, Bool.or_true]

/-! ## C7: idempotence of query optimization -/

theorem optimizeLuceneQuery_def (q : String) :
    optimizeLuceneQuery q =
      if jsTrim q = "*" ∨ jsTrim q = "" then jsTrim q
      else if (!strContains (jsTrim q) ":" && !strContains (jsTrim q) "(" &&
          !strContains (jsTrim q) "\"") = true then "\"" ++ jsTrim q ++ "\""
      else jsTrim q := rfl

theorem optimizeDataPrimeQuery_def (q : String) :
    optimizeDataPrimeQuery q =
      if (!listContains "| limit".data (lowerList (jsTrim q).data)) = true then
        jsTrim q ++ " | limit " ++ toString MCP_LIMITS.MAX_LIMIT
      else jsTrim q := rfl

theorem optimizeLucene_idem (q : String) :
    optimizeLuceneQuery (optimizeLuceneQuery q) = optimizeLuceneQuery q := by
  rw [optimizeLuceneQuery_def q]
  by_cases h1 : jsTrim q = "*" ∨ jsTrim q = ""
  · rw [if_pos h1]
    rcases h1 with h | h <;> rw [h] <;> decide
  · rw [if_neg h1]
    by_cases h2 : (!strContains (jsTrim q) ":" && !strContains (jsTrim q) "(" &&
        !strContains (jsTrim q) "\"") = true
    · rw [if_pos h2, optimizeLuceneQuery_def]
      have hdata : ("\"" ++ jsTrim q ++ "\"").data = '"' :: ((jsTrim q).data ++ ['"']) := by
        rw [String.data_append, String.data_append]
        rfl
      have hfix : jsTrim ("\"" ++ jsTrim q ++ "\"") = "\"" ++ jsTrim q ++ "\"" := by
        apply String.ext
        show trimList ("\"" ++ jsTrim q ++ "\"").data = ("\"" ++ jsTrim q ++ "\"").data
        rw [hdata]
        apply trimList_eq_self
        · intro c hc
          cases hc
          decide
        · intro c hc
          rw [← List.cons_append, List.getLast?_concat] at hc
          cases hc
          decide
      rw [hfix]
      have hne1 : ¬("\"" ++ jsTrim q ++ "\"" = "*" ∨ "\"" ++ jsTrim q ++ "\"" = "") := by
        rintro (h | h) <;> · have := congrArg String.data h; rw [hdata] at this; cases this
      rw [if_neg hne1]
      have hqc : strContains ("\"" ++ jsTrim q ++ "\"") "\"" = true := by
        show listContains ['"'] ("\"" ++ jsTrim q ++ "\"").data = true
        rw [hdata]
        unfold listContains
        simp [startsWithChars]
      rw [if_neg (by rw [hqc]; simp)]
    · rw [if_neg h2, optimizeLuceneQuery_def, jsTrim_jsTrim q, if_neg h1, if_neg h2]

theorem optimizeDataPrime_idem (q : String) (hq : jsTrim q ≠ "") :
    optimizeDataPrimeQuery (optimizeDataPrimeQuery q) = optimizeDataPrimeQuery q := by
  rw [optimizeDataPrimeQuery_def q]
  by_cases h : listContains "| limit".data (lowerList (jsTrim q).data) = true
  · rw [if_neg (by rw [h]; simp), optimizeDataPrimeQuery_def, jsTrim_jsTrim q,
      if_neg (by rw [h]; simp)]
  · rw [if_pos (by rw [Bool.eq_false_iff.mpr h]; rfl)]
    have hdata : (jsTrim q ++ " | limit " ++ toString MCP_LIMITS.MAX_LIMIT).data
        = (jsTrim q).data ++ " | limit 50".data := by
      rw [String.data_append, String.data_append, List.append_assoc]
      rfl
    have hdne : (jsTrim q).data ≠ [] := by
      intro hnil
      exact hq (show jsTrim q = "" from String.ext hnil)
    have hfix : jsTrim (jsTrim q ++ " | limit " ++ toString MCP_LIMITS.MAX_LIMIT)
        = jsTrim q ++ " | limit " ++ toString MCP_LIMITS.MAX_LIMIT := by
      apply String.ext
      show trimList (jsTrim q ++ " | limit " ++ toString MCP_LIMITS.MAX_LIMIT).data
        = (jsTrim q ++ " | limit " ++ toString MCP_LIMITS.MAX_LIMIT).data
      rw [hdata]
      apply trimList_eq_self
      · intro c hc
        rw [List.head?_append_of_ne_nil _ hdne] at hc
        exact trimList_head? q.data c hc
      · intro c hc
        rw [List.getLast?_append_of_ne_nil _ (by decide)] at hc
        have h50 : (" | limit 50".data).getLast? = some '0' := by decide
        rw [h50] at hc
        cases hc
        decide
    rw [optimizeDataPrimeQuery_def, hfix]
    have hcont : listContains "| limit".data
        (lowerList (jsTrim q ++ " | limit " ++ toString MCP_LIMITS.MAX_LIMIT).data) = true := by
      rw [hdata]
      unfold lowerList
      rw [List.map_append]
      apply listContains_append_left
      decide
    rw [if_neg (by rw [hcont]; simp)]

/-! ## All-whitespace queries never detect as dataprime -/

theorem isJsSpace_cases (c : Char) (h : isJsSpace c = true) :
    c = ' ' ∨ c = '\t' ∨ c = '\n' ∨ c = '\r' ∨ c = '\x0b' ∨ c = '\x0c' := by
  simp only [isJsSpace, Bool.or_eq_true, beq_iff_eq] at h
  tauto

theorem lcChar_of_space (c : Char) (h : isJsSpace c = true) : lcChar c = c := by
  rcases isJsSpace_cases c h with h | h | h | h | h | h <;> rw [h] <;> decide

theorem startsWithCI_space (k : Char) (ks : List Char)
    (hk : isJsSpace (lcChar k) = false) :
    ∀ l, (∀ c ∈ l, isJsSpace c = true) → startsWithCI (k :: ks) l = false := by
  intro l hl
  cases l with
  | nil => rfl
  | cons c t =>
    have hc := hl c (List.mem_cons_self c t)
    unfold startsWithCI
    have : (lcChar k == lcChar c) = false := by
      rw [lcChar_of_space c hc]
      by_contra hbe
      have : lcChar k = c := by
        have := Bool.not_eq_false _ |>.mp hbe
        exact beq_iff_eq.mp this
      rw [this] at hk
      rw [hc] at hk
      cases hk
    rw [this, Bool.false_and]

theorem pipeOpAt_space (kw : List Char) (l : List Char)
    (hl : ∀ c ∈ l, isJsSpace c = true) : pipeOpAt kw l = false := by
  cases l with
  | nil => rfl
  | cons c t =>
    have hc := hl c (List.mem_cons_self c t)
    have : (c == '|') = false := by
      by_contra hbe
      have hcp : c = '|' := beq_iff_eq.mp (Bool.not_eq_false _ |>.mp hbe)
      rw [hcp] at hc
      cases hc
    simp only [pipeOpAt]
    rw [this, Bool.false_and]

theorem relOpAt_space (k : Char) (ks : List Char) (hk : isJsSpace (lcChar k) = false)
    (l : List Char) (hl : ∀ c ∈ l, isJsSpace c = true) : relOpAt (k :: ks) l = false := by
  cases l with
  | nil => rfl
  | cons c t =>
    simp only [relOpAt]
    rw [startsWithCI_space k ks hk t (fun d hd => hl d (List.mem_cons_of_mem c hd))]
    simp

theorem sourceAt_space (l : List Char) (hl : ∀ c ∈ l, isJsSpace c = true) :
    sourceAt l = false := by
  unfold sourceAt
  rw [show "source".data = 's' :: "ource".data from rfl,
    startsWithCI_space 's' "ource".data (by decide) l hl, Bool.false_and]

theorem sourcePipeAux_space (l : List Char) (hl : ∀ c ∈ l, isJsSpace c = true) :
    ∀ b, sourcePipeAux b l = false := by
  induction l with
  | nil => intro b; rfl
  | cons c t ih =>
    intro b
    unfold sourcePipeAux
    rw [sourceAt_space (c :: t) hl, Bool.and_false, Bool.false_or]
    exact ih (fun d hd => hl d (List.mem_cons_of_mem c hd)) _

theorem tails_any_space (p : List Char → Bool)
    (hp : ∀ l : List Char, (∀ c ∈ l, isJsSpace c = true) → p l = false) :
    ∀ l : List Char, (∀ c ∈ l, isJsSpace c = true) → l.tails.any p = false := by
  intro l
  induction l with
  | nil =>
    intro _
    simp [List.tails, hp [] (by intro c hc; cases hc)]
  | cons c t ih =>
    intro hl
    rw [List.tails_cons, List.any_cons, hp (c :: t) hl, Bool.false_or]
    exact ih (fun d hd => hl d (List.mem_cons_of_mem c hd))

theorem detect_space_lucene (q : String) (h : ∀ c ∈ q.data, isJsSpace c = true) :
    detectQueryDialect q = .lucene := by
  unfold detectQueryDialect dataPrimePatterns
  rw [if_neg]
  intro hany
  simp only [List.any_cons, List.any_nil, Bool.or_false, Bool.or_eq_true] at hany
  have hsrc : sourcePipeMatch q.data = false := sourcePipeAux_space q.data h false
  have hpipe : ∀ kw, pipeOpMatch kw q.data = false := fun kw =>
    tails_any_space (pipeOpAt kw) (pipeOpAt_space kw) q.data h
  have hrel : ∀ k ks, isJsSpace (lcChar k) = false → relOpMatch (k :: ks) q.data = false :=
    fun k ks hk => tails_any_space (relOpAt (k :: ks)) (relOpAt_space k ks hk) q.data h
  rcases hany with h1 | h1 | h1 | h1 | h1 | h1 | h1 | h1 | h1 | h1 | h1
  · rw [hsrc] at h1; cases h1
  · rw [hpipe _] at h1; cases h1
  · rw [hpipe _] at h1; cases h1
  · rw [hpipe _] at h1; cases h1
  · rw [hpipe _] at h1; cases h1
  · rw [hpipe _] at h1; cases h1
  · rw [hpipe _] at h1; cases h1
  · rw [hpipe _] at h1; cases h1
  · rw [hrel 'c' ['o', 'n', 't', 'a', 'i', 'n', 's'] (by decide)] at h1; cases h1
  · rw [hrel 's' ['t', 'a', 'r', 't', 's', 'w', 'i', 't', 'h'] (by decide)] at h1; cases h1
  · rw [hrel 'e' ['n', 'd', 's', 'w', 'i', 't', 'h'] (by decide)] at h1; cases h1

theorem trimList_nil_space (l : List Char) (h : trimList l = []) :
    ∀ c ∈ l, isJsSpace c = true := by
  have hleft : trimLeft l = [] := by
    cases hc : trimLeft l with
    | nil => rfl
    | cons a t =>
      exfalso
      have ha : isJsSpace a = false := dropWhile_space_head l a t hc
      have : ∀ c ∈ trimLeft l, isJsSpace c = true := by
        unfold trimList trimRight at h
        have hrev : (trimLeft l).reverse.dropWhile isJsSpace = [] := by
          have := congrArg List.reverse h
          rw [List.reverse_reverse] at this
          simpa using this
        intro c hcmem
        exact List.dropWhile_eq_nil_iff.mp hrev c (by simpa using hcmem)
      have := this a (by rw [hc]; exact List.mem_cons_self a t)
      rw [ha] at this
      cases this
  exact fun c hc => List.dropWhile_eq_nil_iff.mp hleft c hc

theorem detect_dataprime_trim_ne (q : String)
    (h : detectQueryDialect q = .dataprime) : jsTrim q ≠ "" := by
  intro hnil
  have hdata : trimList q.data = [] := congrArg String.data hnil
  have := detect_space_lucene q (trimList_nil_space q.data hdata)
  rw [this] at h
  cases h

/-- C7 counterexample: a dataprime query that trims to the empty string is not
a fixed point of a second optimization pass — the first pass produces
" | limit 50" with a leading space, the second pass trims it away. -/
theorem c7_idempotence_counterexample :
    optimizeQuery "" .dataprime = " | limit 50" ∧
    optimizeQuery (optimizeQuery "" .dataprime) .dataprime = "| limit 50" ∧
    (optimizeQuery (optimizeQuery "" .dataprime) .dataprime ==
      optimizeQuery "" .dataprime) = false := by
  exact ⟨by decide, by decide, by decide⟩

/-- C7 amended: the optimization step is idempotent for the lucene dialect on
every query, for the dataprime dialect on every query that does not trim to
the empty string, and — as the pipeline always pairs a query with its detected
dialect — for every query under its detected dialect (a dataprime-detected
query necessarily has non-whitespace content). The only failures are
whitespace-only queries optimized as dataprime. -/
theorem c7_optimize_idempotence (q : String) :
    (optimizeQuery (optimizeQuery q .lucene) .lucene = optimizeQuery q .lucene) ∧
    (jsTrim q ≠ "" →
      optimizeQuery (optimizeQuery q .dataprime) .dataprime = optimizeQuery q .dataprime) ∧
    (optimizeQuery (optimizeQuery q (detectQueryDialect q)) (detectQueryDialect q) =
      optimizeQuery q (detectQueryDialect q)) := by
  refine ⟨optimizeLucene_idem q, fun hq => optimizeDataPrime_idem q hq, ?_⟩
  cases hd : detectQueryDialect q with
  | lucene => exact optimizeLucene_idem q
  | dataprime => exact optimizeDataPrime_idem q (detect_dataprime_trim_ne q hd)

/-! ## Query Executor: retry policy
Source: CoralogixClient.makeRequestWithRetry (src/utils/coralogix-client.ts,
132-160). One attempt's outcome is what fetch yields: a Response carrying an
HTTP status, or a thrown transport-level failure. The remote end is modelled
as a function from the attempt index (equal to retryCount, which starts at 0
and increases by 1 per attempt) to that attempt's outcome. The result pairs
what the call returns (the final Response's status) or throws with the list
of backoff delays slept between attempts, in order. -/

inductive FetchOutcome
  | resp (status : Nat)
  | netErr
deriving DecidableEq

def makeRequestWithRetry (fetch : Nat → FetchOutcome) (retryCount : Nat) :
    Except Unit Nat × List Nat :=
  match fetch retryCount with
  | .resp status =>
    if (status = 429 ∨ 500 ≤ status) ∧ retryCount < MCP_LIMITS.MAX_RETRIES then
      let delay := MCP_LIMITS.RETRY_DELAY_MS * 2 ^ retryCount
      let r := makeRequestWithRetry fetch (retryCount + 1)
      (r.1, delay :: r.2)
    else (.ok status, [])
  | .netErr =>
    if retryCount < MCP_LIMITS.MAX_RETRIES then
      let delay := MCP_LIMITS.RETRY_DELAY_MS * 2 ^ retryCount
      let r := makeRequestWithRetry fetch (retryCount + 1)
      (r.1, delay :: r.2)
    else (.error (), [])
termination_by MCP_LIMITS.MAX_RETRIES - retryCount
decreasing_by
  all_goals simp only [MCP_LIMITS.MAX_RETRIES] at *
  all_goals omega

/-- Source: the Response.ok check in CoralogixClient.queryLogs (lines 39-56):
fetch's Response.ok means an HTTP status in [200, 299]; after the retry loop
a non-ok response throws the terminal API error carrying the status. -/
def queryLogsHttpPhase (fetch : Nat → FetchOutcome) : Except QueryLogsError Nat :=
  match makeRequestWithRetry fetch 0 with
  | (.error _, _) => .error .transportFailure
  | (.ok status, _) =>
    if 200 ≤ status ∧ status ≤ 299 then .ok status
    else .error (.httpError status)

theorem makeRequestWithRetry_stop (fetch : Nat → FetchOutcome) (r : Nat)
    (h : ¬ r < MCP_LIMITS.MAX_RETRIES) :
    (makeRequestWithRetry fetch r).2 = [] := by
  rw [makeRequestWithRetry.eq_def]
  split
  · rw [if_neg (fun hc => h hc.2)]
  · rw [if_neg h]

theorem makeRequestWithRetry_delays (fetch : Nat → FetchOutcome) :
    ∀ n r : Nat, MCP_LIMITS.MAX_RETRIES - r ≤ n →
      ∃ k, k ≤ MCP_LIMITS.MAX_RETRIES - r ∧
        (makeRequestWithRetry fetch r).2 =
          (List.range' r k).map (fun i => MCP_LIMITS.RETRY_DELAY_MS * 2 ^ i) := by
  intro n
  induction n with
  | zero =>
    intro r hr
    refine ⟨0, by omega, ?_⟩
    rw [makeRequestWithRetry_stop fetch r (by omega)]
    rfl
  | succ n ih =>
    intro r hr
    by_cases hlt : r < MCP_LIMITS.MAX_RETRIES
    · rw [makeRequestWithRetry.eq_def]
      split
      · rename_i s heq
        by_cases hs : s = 429 ∨ 500 ≤ s
        · obtain ⟨k, hk, he⟩ := ih (r + 1) (by omega)
          refine ⟨k + 1, by omega, ?_⟩
          rw [if_pos (And.intro hs hlt), List.range'_succ, List.map_cons, ← he]
        · refine ⟨0, by omega, ?_⟩
          rw [if_neg (fun hc => hs hc.1)]
          rfl
      · obtain ⟨k, hk, he⟩ := ih (r + 1) (by omega)
        refine ⟨k + 1, by omega, ?_⟩
        rw [if_pos hlt, List.range'_succ, List.map_cons, ← he]
    · refine ⟨0, by omega, ?_⟩
      rw [makeRequestWithRetry_stop fetch r hlt]
      rfl

/-- C5: (a) the documented scenario — 503 twice then 200 succeeds with status
200 after exactly two retries, sleeping 1000 ms then 2000 ms; (b) a first
response whose status is neither 429 nor 5xx is returned at once with no
retry and no sleep, and when it is not a 2xx success the executor surfaces
the terminal HTTP error carrying it; (c) in every execution the i-th backoff
delay is RETRY_DELAY_MS * 2^i and at most MAX_RETRIES = 3 delays occur. -/
theorem c5_retry_policy (fetch : Nat → FetchOutcome) :
    ((fetch 0 = .resp 503 ∧ fetch 1 = .resp 503 ∧ fetch 2 = .resp 200) →
      makeRequestWithRetry fetch 0 = (.ok 200, [1000, 2000])) ∧
    (∀ s : Nat, fetch 0 = .resp s → ¬ (s = 429 ∨ 500 ≤ s) →
      makeRequestWithRetry fetch 0 = (.ok s, []) ∧
      (¬ (200 ≤ s ∧ s ≤ 299) → queryLogsHttpPhase fetch = .error (.httpError s))) ∧
    (∃ k, k ≤ MCP_LIMITS.MAX_RETRIES ∧
      (makeRequestWithRetry fetch 0).2 =
        (List.range' 0 k).map (fun i => MCP_LIMITS.RETRY_DELAY_MS * 2 ^ i)) := by
  refine ⟨?_, ?_, ?_⟩
  · rintro ⟨h0, h1, h2⟩
    rw [makeRequestWithRetry.eq_def, h0]
    dsimp only
    rw [if_pos (by norm_num [MCP_LIMITS.MAX_RETRIES])]
    rw [makeRequestWithRetry.eq_def, h1]
    dsimp only
    rw [if_pos (by norm_num [MCP_LIMITS.MAX_RETRIES])]
    rw [makeRequestWithRetry.eq_def, h2]
    dsimp only
    rw [if_neg (by rintro ⟨h | h, -⟩ <;> omega)]
    simp [MCP_LIMITS.RETRY_DELAY_MS]
  · intro s h0 hs
    have hstop : makeRequestWithRetry fetch 0 = (.ok s, []) := by
      rw [makeRequestWithRetry.eq_def, h0]
      dsimp only
      rw [if_neg (fun hc => hs hc.1)]
    refine ⟨hstop, fun hok => ?_⟩
    simp only [queryLogsHttpPhase, hstop]
    rw [if_neg hok]
  · exact makeRequestWithRetry_delays fetch MCP_LIMITS.MAX_RETRIES 0 (by omega)

/-- C5 witness: the scenario applied to a concrete remote that returns 503 on
attempts 0 and 1 and 200 on attempt 2. -/
theorem c5_retry_witness :
    makeRequestWithRetry (fun n => if n ≤ 1 then .resp 503 else .resp 200) 0 =
      (.ok 200, [1000, 2000]) :=
  (c5_retry_policy (fun n => if n ≤ 1 then .resp 503 else .resp 200)).1
    ⟨by norm_num, by norm_num, by norm_num⟩

/-! ## Response Normalizer
Source: ResponseProcessor (src/utils/response-processor.ts). -/

/-- Source: the severityMap object of ResponseProcessor.normalizeSeverity. -/
def severityMap : List (String × String) :=
  [("TRACE", "TRACE"), ("DEBUG", "DEBUG"), ("INFO", "INFO"), ("INFORMATION", "INFO"),
   ("WARN", "WARN"), ("WARNING", "WARN"), ("ERROR", "ERROR"), ("ERR", "ERROR"),
   ("FATAL", "FATAL"), ("CRITICAL", "FATAL"), ("CRIT", "FATAL")]

def upperList (l : List Char) : List Char := l.map Char.toUpper

/-- Source: ResponseProcessor.normalizeSeverity (233-252):
severityMap[normalized] || normalized || "UNKNOWN" (all map values are
truthy, an unmapped non-empty value passes through, empty maps to UNKNOWN). -/
def normalizeSeverity (severity : String) : String :=
  let normalized : String := ⟨trimList (upperList severity.data)⟩
  match severityMap.lookup normalized with
  | some v => v
  | none => if normalized ≠ "" then normalized else "UNKNOWN"

/-- Character class [\w\$\.<>] of the Java-frame signature. -/
def stackClassChar (c : Char) : Bool :=
  isWordChar c || c == '$' || c == '.' || c == '<' || c == '>'

/-- Match of the Java-frame regex at the head of the text: "at", one or more
spaces, one or more class characters, a parenthesized run of non-parenthesis
characters. Each repeated class is disjoint from what follows, so greedy
scanning is exact. -/
def javaFrameAt : List Char → Bool
  | 'a' :: 't' :: rest =>
    (match rest with
     | c :: rest2 =>
       isJsSpace c &&
         (match rest2.dropWhile isJsSpace with
          | d :: r2 =>
            stackClassChar d &&
              (match r2.dropWhile stackClassChar with
               | '(' :: r3 =>
                 (match r3.dropWhile (fun x => !(x == ')')) with
                  | ')' :: _ => true
                  | _ => false)
               | _ => false)
          | [] => false)
     | [] => false)
  | _ => false

def javaFrameMatch (t : List Char) : Bool := t.tails.any javaFrameAt

/-- Match of the general "at " pattern from a line start (the \s classes can
cross newlines, as in JS multiline mode). -/
def atLineAt (s : List Char) : Bool :=
  match s.dropWhile isJsSpace with
  | 'a' :: 't' :: c :: _ => isJsSpace c
  | _ => false

/-- Match of the Python-frame signature (File "...", line N, case-insensitive)
at the head of the text. -/
def pyFileAt (s : List Char) : Bool :=
  startsWithCI "file".data s &&
    (match s.drop 4 with
     | c :: rest =>
       isJsSpace c &&
         (match rest.dropWhile isJsSpace with
          | '"' :: r2 =>
            (match r2 with
             | d :: r3 =>
               !(d == '"') &&
                 (match r3.dropWhile (fun x => !(x == '"')) with
                  | '"' :: ',' :: r4 =>
                    (match r4 with
                     | e :: r5 =>
                       isJsSpace e &&
                         startsWithCI "line".data (r5.dropWhile isJsSpace) &&
                         (match (r5.dropWhile isJsSpace).drop 4 with
                          | f :: r6 =>
                            isJsSpace f &&
                              (match r6.dropWhile isJsSpace with
                               | g :: _ => g.isDigit
                               | [] => false)
                          | [] => false)
                     | [] => false)
                  | _ => false)
             | [] => false)
          | _ => false)
     | [] => false)

def pyFileMatch (t : List Char) : Bool := t.tails.any pyFileAt

/-- One or more word characters immediately followed by the literal "Error:". -/
def errorColonTail : List Char → Bool
  | [] => false
  | c :: rest =>
    isWordChar c && (startsWithChars "Error:".data rest || errorColonTail rest)

/-- Match of the <Word>Error: signature from a line start. -/
def errorLineAt (s : List Char) : Bool := errorColonTail (s.dropWhile isJsSpace)

/-- Match of the "Caused by:" signature from a line start. -/
def causedByAt (s : List Char) : Bool :=
  startsWithChars "Caused by:".data (s.dropWhile isJsSpace)

/-- Match of the "... N more" signature from a line start. -/
def moreLinesAt (s : List Char) : Bool :=
  match s.dropWhile isJsSpace with
  | '.' :: '.' :: '.' :: r =>
    (match r with
     | c :: r2 =>
       isJsSpace c &&
         (match r2.dropWhile isJsSpace with
          | d :: r3 =>
            d.isDigit &&
              (match r3.dropWhile Char.isDigit with
               | e :: r4 =>
                 isJsSpace e && startsWithChars "more".data (r4.dropWhile isJsSpace)
               | [] => false)
          | [] => false)
     | [] => false)
  | _ => false

/-- The positions after each newline of the text. -/
def lineStartsAux : List Char → List (List Char)
  | [] => []
  | c :: rest =>
    if c = '\n' then rest :: lineStartsAux rest else lineStartsAux rest

/-- Every position a multiline ^ anchors at: the start of the text and the
position after each newline. -/
def lineStarts (t : List Char) : List (List Char) := t :: lineStartsAux t

/-- Source: ResponseProcessor.isStackTrace (297-308): any of the six
signatures, the anchored ones tested from every line start. -/
def isStackTrace (t : List Char) : Bool :=
  javaFrameMatch t ||
  (lineStarts t).any atLineAt ||
  pyFileMatch t ||
  (lineStarts t).any errorLineAt ||
  (lineStarts t).any causedByAt ||
  (lineStarts t).any moreLinesAt

/-- JS String.prototype.split("\n") over characters. -/
def splitNlChars : List Char → List (List Char)
  | [] => [[]]
  | c :: rest =>
    if c = '\n' then [] :: splitNlChars rest
    else
      match splitNlChars rest with
      | l :: ls => (c :: l) :: ls
      | [] => [[c]]

/-- Array.prototype.join("\n") over characters. -/
def joinNlChars : List (List Char) → List Char
  | [] => []
  | [l] => l
  | l :: ls => l ++ '\n' :: joinNlChars ls

/-- Source: ResponseProcessor.truncateStackTrace (313-332). lines.slice(1,
maxLines) keeps the elements at indices 1 .. maxLines-1, i.e. at most
MAX_STACK_TRACE_LINES - 1 = 4 lines after the first; remainingLines is the JS
number lines.length - maxLines, an Int since it can be negative. -/
def truncateStackTrace (t : List Char) : List Char :=
  let lines := splitNlChars t
  let errorLine := lines.headD []
  let stackLines := (lines.drop 1).take (MCP_LIMITS.MAX_STACK_TRACE_LINES - 1)
  let remainingLines : Int :=
    (lines.length : Int) - (MCP_LIMITS.MAX_STACK_TRACE_LINES : Int)
  let truncatedStack := joinNlChars stackLines
  if remainingLines > 0 then
    errorLine ++ '\n' :: (truncatedStack ++
      ("\n... and ".data ++ (toString remainingLines).data ++ " more lines".data))
  else errorLine ++ '\n' :: truncatedStack

/-- Source: ResponseProcessor.intelligentTruncate (273-292).
Math.floor(MAX_MESSAGE_LENGTH * 0.7) is exactly 700 in IEEE double
arithmetic; preserveEnd = 1000 - 700 - 10 = 290; the tail substring starts at
text.length - preserveEnd. -/
def intelligentTruncate (t : List Char) : List Char :=
  if isStackTrace t then truncateStackTrace t
  else if t.length > MCP_LIMITS.MAX_MESSAGE_LENGTH then
    t.take 700 ++ " ... ".data ++ t.drop (t.length - 290)
  else t

/-- Source: ResponseProcessor.processMessage (257-268): empty text is kept,
other text is trimmed and truncated when longer than MAX_MESSAGE_LENGTH. -/
def processMessage (text : String) : String :=
  if text = "" then ""
  else
    let processed := trimList text.data
    if processed.length > MCP_LIMITS.MAX_MESSAGE_LENGTH then ⟨intelligentTruncate processed⟩
    else ⟨processed⟩

/-- A JSON-style value, used for a log record's non-standard fields and for
the executor's parsed NDJSON lines. -/
inductive JsValue
  | nullv
  | undefinedv
  | bool (b : Bool)
  | num (n : Int)
  | str (s : String)
  | arr (elems : List JsValue)
  | obj (fields : List (String × JsValue))

/-- Source type: CoralogixLogEntry (src/types/index.ts 13-25): the declared
fields plus arbitrary additional key-value pairs. Extra keys that repeat a
standard field name are removed by the standardFields filter either way. -/
structure CoralogixLogEntry where
  timestamp : String
  severity : String
  text : String
  applicationName : Option String := none
  subsystemName : Option String := none
  computerName : Option String := none
  className : Option String := none
  methodName : Option String := none
  threadId : Option String := none
  category : Option String := none
  extra : List (String × JsValue) := []

/-- Source type: ProcessedLogEntry (src/types/index.ts 44-56). -/
structure ProcessedLogEntry where
  timestamp : String
  severity : String
  message : String
  application : Option String
  subsystem : Option String
  host : Option String
  thread : Option String
  className : Option String
  methodName : Option String
  category : Option String
  additionalFields : Option (List (String × JsValue))

/-- Source: the standardFields set of extractAdditionalFields. -/
def standardFields : List String :=
  ["timestamp", "severity", "text", "applicationName", "subsystemName",
   "computerName", "className", "methodName", "threadId", "category"]

def isNullOrUndefined : JsValue → Bool
  | .nullv => true
  | .undefinedv => true
  | _ => false

/-- Truncation of long string field values (extractAdditionalFields 358-369). -/
def truncateFieldValue (v : JsValue) : JsValue :=
  match v with
  | .str s =>
    if s.data.length > MCP_LIMITS.MAX_ERROR_CONTEXT then
      .str ⟨s.data.take MCP_LIMITS.MAX_ERROR_CONTEXT ++ "...".data⟩
    else .str s
  | _ => v

/-- Source: ResponseProcessor.extractAdditionalFields (337-375).
Object.entries also yields the standard declared fields, but every one of
their keys is in standardFields and is filtered out, leaving the extra
pairs; an empty result is returned as undefined (none). -/
def extractAdditionalFields (log : CoralogixLogEntry) : Option (List (String × JsValue)) :=
  let kept := log.extra.filter
    (fun p => !(standardFields.contains p.1) && !isNullOrUndefined p.2)
  let mapped := kept.map (fun p => (p.1, truncateFieldValue p.2))
  if mapped.isEmpty then none else some mapped

/-- Source: ResponseProcessor.processLogEntry (214-228). -/
def processLogEntry (log : CoralogixLogEntry) : ProcessedLogEntry :=
  { timestamp := log.timestamp
    severity := normalizeSeverity log.severity
    message := processMessage log.text
    application := log.applicationName
    subsystem := log.subsystemName
    host := log.computerName
    thread := log.threadId
    className := log.className
    methodName := log.methodName
    category := log.category
    additionalFields := extractAdditionalFields log }

/-- summary block of QueryLogsOutput; source nests timeRange.start/end,
flattened here into timeRangeStart/timeRangeEnd. -/
structure OutputSummary where
  totalResults : Int
  resultsShown : Nat
  timeRangeStart : String
  timeRangeEnd : String
  page : Int
  hasNextPage : Bool
  queryType : Dialect

structure OutputPagination where
  currentPage : Int
  nextPageAvailable : Bool

/-- Source type: QueryLogsOutput (src/types/index.ts 58-76); processLogs
always supplies the pagination block. -/
structure QueryLogsOutput where
  summary : OutputSummary
  logs : List ProcessedLogEntry
  pagination : OutputPagination

/-- ECMAScript Date.prototype.toISOString: on an Invalid Date it throws a
RangeError; on a valid date it yields the ISO-8601 rendering, abstracted by
fmt. -/
def toISOString (fmt : Int → String) : Option Int → Except QueryLogsError String
  | some t => .ok (fmt t)
  | none => .error .invalidTimeValue

/-- Source: ResponseProcessor.processLogs (183-209). totalResults ||
logs.length is the JS || (a server total of 0 falls back to the returned
count); the toISOString calls on the context's range (start first) make the
function fallible exactly when the context holds an Invalid Date. -/
def processLogs (fmt : Int → String) (logs : List CoralogixLogEntry)
    (context : QueryContext) (page : Int) (totalResults : Option Int) :
    Except QueryLogsError QueryLogsOutput :=
  match toISOString fmt context.timeStart, toISOString fmt context.timeEnd with
  | .ok s, .ok e =>
    .ok { summary := { totalResults := jsOrIntOpt totalResults (logs.length : Int)
                       resultsShown := (logs.map processLogEntry).length
                       timeRangeStart := s
                       timeRangeEnd := e
                       page := page
                       hasNextPage := ((logs.length : Int) == context.limit)
                       queryType := context.detectedDialect }
          logs := logs.map processLogEntry
          pagination := { currentPage := page
                          nextPageAvailable := ((logs.length : Int) == context.limit) } }
  | .error er, _ => .error er
  | .ok _, .error er => .error er

/-! ## Claim C8 -/

/-- C8: whenever processLogs produces a result, hasNextPage and
nextPageAvailable both equal "the number of records handed to the normalizer
is exactly the context's resolved limit", whatever the server-reported total
was. -/
theorem c8_hasNextPage (fmt : Int → String) (logs : List CoralogixLogEntry)
    (context : QueryContext) (page : Int) (totalResults : Option Int)
    (out : QueryLogsOutput)
    (h : processLogs fmt logs context page totalResults = .ok out) :
    out.summary.hasNextPage = ((logs.length : Int) == context.limit) ∧
    out.pagination.nextPageAvailable = ((logs.length : Int) == context.limit) := by
  simp only [processLogs] at h
  split at h
  · cases h; exact ⟨rfl, rfl⟩
  · cases h
  · cases h

/-- C8 witness: processLogs applied at a concrete empty page. -/
theorem c8_hasNextPage_witness :
    ∃ out : QueryLogsOutput,
      processLogs (fun _ => "") []
        { originalQuery := "q", detectedDialect := .lucene,
          timeStart := some 0, timeEnd := some 1, limit := 20, includeArchive := false }
        1 none = .ok out ∧
      out.summary.hasNextPage = ((List.length ([] : List CoralogixLogEntry) : Int) == (20 : Int)) := by
  refine ⟨_, rfl, ?_⟩
  exact (c8_hasNextPage (fun _ => "") []
    { originalQuery := "q", detectedDialect := .lucene,
      timeStart := some 0, timeEnd := some 1, limit := 20, includeArchive := false }
    1 none _ rfl).1

/-! ## Claim C6 -/

/-- The truncation behaviour claim C6 describes, as written: the first line
verbatim, then up to MAX_STACK_TRACE_LINES = 5 subsequent lines, then an
exact "... and K more lines" marker when lines were omitted. -/
def claimStackTruncate (text : String) : String :=
  let lines := splitNlChars (trimList text.data)
  let kept := (lines.drop 1).take MCP_LIMITS.MAX_STACK_TRACE_LINES
  let omitted : Nat := (lines.drop 1).length - MCP_LIMITS.MAX_STACK_TRACE_LINES
  if omitted > 0 then
    ⟨lines.headD [] ++ '\n' :: (joinNlChars kept ++
      ("\n... and ".data ++ (toString omitted).data ++ " more lines".data))⟩
  else ⟨lines.headD [] ++ '\n' :: joinNlChars kept⟩

/-- A stack-trace-shaped message of 151 lines and 1228 characters: an error
line followed by 150 frame lines. -/
def stackTraceSample : String :=
  "SomeError: top level failure" ++ ⟨(List.replicate 150 "\nat a(b)".data).flatten⟩

/-- C6 counterexample: on a 151-line stack trace the code keeps only 4 lines
after the first (slice(1, 5)) and reports "... and 146 more lines" (146 =
151 - 5 omitted lines), while the claim's reading (first line, then up to 5
subsequent lines, then a marker counting the omitted lines) keeps 5 and
counts 145. -/
theorem c6_stacktrace_counterexample :
    (trimList stackTraceSample.data).length > 1000 ∧
    isStackTrace (trimList stackTraceSample.data) = true ∧
    processMessage stackTraceSample =
      "SomeError: top level failure\nat a(b)\nat a(b)\nat a(b)\nat a(b)" ++
        "\n... and 146 more lines" ∧
    claimStackTruncate stackTraceSample =
      "SomeError: top level failure\nat a(b)\nat a(b)\nat a(b)\nat a(b)\nat a(b)" ++
        "\n... and 145 more lines" ∧
    (processMessage stackTraceSample == claimStackTruncate stackTraceSample) = false := by
  refine ⟨by decide, by decide, by decide, by decide, by decide⟩

/-- C6 amended: for a trimmed message longer than 1000 characters that
matches a stack-trace signature and has more than 5 lines, the processed
message is the first line verbatim, then the next 4 lines
(MAX_STACK_TRACE_LINES - 1, from slice(1, 5)), then the marker
"... and K more lines" where K = lines - 5 equals exactly the number of
omitted lines. -/
theorem c6_stacktrace_truncation (text : String)
    (h1 : (trimList text.data).length > MCP_LIMITS.MAX_MESSAGE_LENGTH)
    (h2 : isStackTrace (trimList text.data) = true)
    (h3 : (splitNlChars (trimList text.data)).length > MCP_LIMITS.MAX_STACK_TRACE_LINES) :
    processMessage text =
      ⟨(splitNlChars (trimList text.data)).headD [] ++ '\n' ::
        (joinNlChars (((splitNlChars (trimList text.data)).drop 1).take
            (MCP_LIMITS.MAX_STACK_TRACE_LINES - 1)) ++
          ("\n... and ".data ++
            (toString ((splitNlChars (trimList text.data)).length -
              (MCP_LIMITS.MAX_STACK_TRACE_LINES : Int) : Int)).data ++
            " more lines".data))⟩ ∧
    ((splitNlChars (trimList text.data)).length -
        (MCP_LIMITS.MAX_STACK_TRACE_LINES : Int) : Int) =
      ((((splitNlChars (trimList text.data)).drop 1).drop
          (MCP_LIMITS.MAX_STACK_TRACE_LINES - 1)).length : Int) := by
  have htext : text ≠ "" := by
    intro he
    rw [he] at h1
    exact absurd h1 (by decide)
  constructor
  · simp only [processMessage, if_neg htext]
    rw [if_pos h1]
    simp only [intelligentTruncate]
    rw [if_pos h2]
    simp only [truncateStackTrace]
    rw [if_pos (by
      have := h3
      simp only [MCP_LIMITS.MAX_STACK_TRACE_LINES] at this ⊢
      omega)]
  · simp only [List.length_drop]
    have := h3
    simp only [MCP_LIMITS.MAX_STACK_TRACE_LINES] at this ⊢
    omega

/-- C6 witness: the amended statement applied to the concrete sample. -/
theorem c6_stacktrace_witness :
    ((splitNlChars (trimList stackTraceSample.data)).length -
        (MCP_LIMITS.MAX_STACK_TRACE_LINES : Int) : Int) =
      ((((splitNlChars (trimList stackTraceSample.data)).drop 1).drop
          (MCP_LIMITS.MAX_STACK_TRACE_LINES - 1)).length : Int) :=
  (c6_stacktrace_truncation stackTraceSample (by decide) (by decide) (by decide)).2

/-! ## Query Executor: NDJSON response parsing
Source: CoralogixClient.queryLogs (src/utils/coralogix-client.ts 58-120).
JSON.parse is passed in abstractly as parseJson : String -> Option JsValue
(none = the parse threw). JS property access obj.k throws a TypeError when
obj is null or undefined, so it is modelled as Except; optional chaining
obj?.k is total. -/

/-- JS truthiness of a parsed JSON value. -/
def truthy : JsValue → Bool
  | .nullv => false
  | .undefinedv => false
  | .bool b => b
  | .num n => !(n == 0)
  | .str s => !(s == "")
  | .arr _ => true
  | .obj _ => true

/-- Property read on a non-null value: an object's field, else undefined. -/
def jsProp (v : JsValue) (k : String) : JsValue :=
  match v with
  | .obj fields =>
    (match fields.lookup k with
     | some x => x
     | none => .undefinedv)
  | _ => .undefinedv

/-- JS member access v.k: a TypeError on null/undefined, else total. -/
def jsPropThrow (v : JsValue) (k : String) : Except Unit JsValue :=
  match v with
  | .nullv => .error ()
  | .undefinedv => .error ()
  | _ => .ok (jsProp v k)

/-- JS optional chaining v?.k. -/
def jsPropOpt (v : JsValue) (k : String) : JsValue :=
  match v with
  | .nullv => .undefinedv
  | .undefinedv => .undefinedv
  | _ => jsProp v k

/-- Does the parsed value expose the key (as an own property)? -/
def hasField (v : JsValue) (k : String) : Bool :=
  match v with
  | .obj fields => fields.any (fun p => p.1 == k)
  | _ => false

/-- Source lines 61-64: trim the body, split on newlines, keep the lines
whose trim is truthy (non-empty). -/
def ndjsonLines (responseText : String) : List String :=
  (((splitNlChars (trimList responseText.data)).map
      (fun l => (⟨l⟩ : String)))).filter (fun l => jsTrim l ≠ "")

/-- lines.map(JSON.parse): a throw on any line aborts the whole map. -/
def mapParse (parseJson : String → Option JsValue) : List String → Option (List JsValue)
  | [] => some []
  | l :: ls =>
    match parseJson l, mapParse parseJson ls with
    | some v, some vs => some (v :: vs)
    | _, _ => none

/-- Array.prototype.find with a callback that can throw. -/
def findThrow (p : JsValue → Except Unit Bool) : List JsValue → Except Unit (Option JsValue)
  | [] => .ok none
  | x :: xs =>
    match p x with
    | .error e => .error e
    | .ok true => .ok (some x)
    | .ok false => findThrow p xs

/-- JS a || b on values. -/
def jsOrVal (a b : JsValue) : JsValue := if truthy a then a else b

/-- The code reads resultObject.result.results as an array (a truthy
non-array value does not occur in the wire format); its elements, else []. -/
def asArr : JsValue → List JsValue
  | .arr xs => xs
  | _ => []

/-- parsedObjects[0]?.queryId?.queryId || "unknown" (lines 81 and 99). -/
def extractQueryId (parsedObjects : List JsValue) : JsValue :=
  let v := jsPropOpt (jsPropOpt (parsedObjects.headD .undefinedv) "queryId") "queryId"
  if truthy v then v else .str "unknown"

/-- The empty response of lines 95-100. -/
def emptyNdjsonResponse (qid : JsValue) : JsValue :=
  .obj [("logs", .arr []), ("total", .num 0), ("hasMore", .bool false), ("queryId", qid)]

/-- Lines 72-87: dispatch on the found result object. -/
def handleResultObject (parsedObjects : List JsValue) (r : JsValue) : Except Unit JsValue :=
  match jsPropThrow r "result" with
  | .error e => .error e
  | .ok rv =>
    if truthy rv then
      match jsPropThrow rv "results" with
      | .error e => .error e
      | .ok resultsv =>
        let logs := asArr (jsOrVal resultsv (.arr []))
        .ok (.obj [("logs", .arr logs), ("total", .num (logs.length : Int)),
          ("hasMore", .bool false), ("queryId", extractQueryId parsedObjects)])
    else
      match jsPropThrow r "logs" with
      | .error e => .error e
      | .ok lv =>
        if truthy lv then .ok r
        else .ok (emptyNdjsonResponse (extractQueryId parsedObjects))

/-- The body of the NDJSON try block (lines 58-100): parse every line, find
the first object with a truthy result (else a truthy logs) field, and shape
the response; no find hit yields the empty response. -/
def queryLogsParseBody (parseJson : String → Option JsValue) (responseText : String) :
    Except Unit JsValue :=
  match mapParse parseJson (ndjsonLines responseText) with
  | none => .error ()
  | some parsedObjects =>
    match findThrow (fun o => Except.map truthy (jsPropThrow o "result")) parsedObjects with
    | .error e => .error e
    | .ok r1 =>
      match (match r1 with
             | some r => Except.ok (some r)
             | none =>
               findThrow (fun o => Except.map truthy (jsPropThrow o "logs")) parsedObjects) with
      | .error e => .error e
      | .ok (some r) => handleResultObject parsedObjects r
      | .ok none => .ok (emptyNdjsonResponse (extractQueryId parsedObjects))

/-- Source: the try/catch around the NDJSON parsing (58-120): any exception
inside the block — a JSON.parse throw, or a TypeError from accessing .result
on a parsed null line — is caught and re-thrown as the MalformedResponse
error. -/
def queryLogsParsePhase (parseJson : String → Option JsValue) (responseText : String) :
    Except QueryLogsError JsValue :=
  match queryLogsParseBody parseJson responseText with
  | .ok v => .ok v
  | .error _ => .error .malformedResponse

/-! ## Claim C9 -/

theorem findThrow_none (p : JsValue → Except Unit Bool) :
    ∀ l : List JsValue, (∀ o ∈ l, p o = .ok false) → findThrow p l = .ok none := by
  intro l
  induction l with
  | nil => intro _; rfl
  | cons x xs ih =>
    intro h
    unfold findThrow
    rw [h x (List.mem_cons_self x xs)]
    exact ih (fun o ho => h o (List.mem_cons_of_mem x ho))

theorem mapParse_some (f : String → Option JsValue) :
    ∀ ls : List String, ls.all (fun l => (f l).isSome) = true →
      ∃ vs, mapParse f ls = some vs ∧ ∀ v ∈ vs, ∃ l ∈ ls, f l = some v := by
  intro ls
  induction ls with
  | nil => intro _; exact ⟨[], rfl, by intro v hv; cases hv⟩
  | cons l ls ih =>
    intro h
    rw [List.all_cons, Bool.and_eq_true] at h
    obtain ⟨vs, hvs, hmem⟩ := ih h.2
    cases hf : f l with
    | none => rw [hf] at h; cases h.1
    | some v =>
      refine ⟨v :: vs, ?_, ?_⟩
      · unfold mapParse
        rw [hf, hvs]
      · intro w hw
        rcases List.mem_cons.mp hw with hw | hw
        · exact ⟨l, List.mem_cons_self l ls, by rw [hf, hw]⟩
        · obtain ⟨l', hl', hfl'⟩ := hmem w hw
          exact ⟨l', List.mem_cons_of_mem l hl', hfl'⟩

theorem jsPropThrow_ok (v : JsValue) (k : String) (h : isNullOrUndefined v = false) :
    jsPropThrow v k = .ok (jsProp v k) := by
  cases v <;> first | rfl | cases h

theorem jsProp_of_no_field (v : JsValue) (k : String) (h : hasField v k = false) :
    jsProp v k = .undefinedv := by
  cases v with
  | obj fields =>
    simp only [hasField] at h
    simp only [jsProp]
    have : fields.lookup k = none := by
      induction fields with
      | nil => rfl
      | cons p ps ih =>
        rw [List.any_cons, Bool.or_eq_false_iff] at h
        rw [List.lookup_cons]
        have hne : (k == p.1) = false := by
          cases hbe : k == p.1
          · rfl
          · have := beq_iff_eq.mp hbe
            have h1 := h.1
            rw [← this] at h1
            simp at h1
        rw [hne]
        exact ih h.2
    rw [this]
  | nullv => rfl
  | undefinedv => rfl
  | bool b => rfl
  | num n => rfl
  | str s => rfl
  | arr elems => rfl

/-- C9 counterexample: the response body "null" parses as NDJSON (one line,
valid JSON) and exposes neither a result key nor a logs key, yet queryLogs
fails with the MalformedResponse error instead of returning the empty result:
the find callback evaluates null.result, whose TypeError the NDJSON catch
converts into a parse failure. -/
theorem c9_null_line_counterexample :
    ndjsonLines "null" = ["null"] ∧
    (fun s => if s = "null" then some JsValue.nullv else none) "null" = some JsValue.nullv ∧
    hasField JsValue.nullv "result" = false ∧
    hasField JsValue.nullv "logs" = false ∧
    queryLogsParsePhase (fun s => if s = "null" then some JsValue.nullv else none) "null" =
      .error .malformedResponse := by
  exact ⟨rfl, rfl, rfl, rfl, rfl⟩

/-- C9 amended: when every line of the NDJSON body parses, no parsed line is
JSON null, and no parsed line exposes a result key or a logs key, queryLogs
returns successfully with an empty log list and total 0 rather than raising;
a null line instead trips the TypeError/MalformedResponse path shown in the
counterexample. -/
theorem c9_empty_result (parseJson : String → Option JsValue) (responseText : String)
    (h1 : (ndjsonLines responseText).all (fun l => (parseJson l).isSome) = true)
    (h2 : (ndjsonLines responseText).all (fun l =>
      match parseJson l with
      | some v => !isNullOrUndefined v && !hasField v "result" && !hasField v "logs"
      | none => true) = true) :
    ∃ qid, queryLogsParsePhase parseJson responseText =
      .ok (emptyNdjsonResponse qid) := by
  obtain ⟨vs, hvs, hmem⟩ := mapParse_some parseJson (ndjsonLines responseText) h1
  have hprops : ∀ v ∈ vs, isNullOrUndefined v = false ∧ hasField v "result" = false ∧
      hasField v "logs" = false := by
    intro v hv
    obtain ⟨l, hl, hfl⟩ := hmem v hv
    have := List.all_eq_true.mp h2 l hl
    rw [hfl] at this
    simp only [Bool.and_eq_true, Bool.not_eq_true'] at this
    exact ⟨this.1.1, this.1.2, this.2⟩
  have hfind : ∀ k : String, (∀ v ∈ vs, hasField v k = false) →
      findThrow (fun o => Except.map truthy (jsPropThrow o k)) vs = .ok none := by
    intro k hk
    apply findThrow_none
    intro o ho
    rw [jsPropThrow_ok o k (hprops o ho).1, jsProp_of_no_field o k (hk o ho)]
    rfl
  refine ⟨extractQueryId vs, ?_⟩
  unfold queryLogsParsePhase queryLogsParseBody
  rw [hvs]
  dsimp only
  rw [hfind "result" (fun v hv => (hprops v hv).2.1)]
  dsimp only
  rw [hfind "logs" (fun v hv => (hprops v hv).2.2)]

/-- C9 witness: the amended statement at a one-line numeric body. -/
theorem c9_empty_result_witness :
    ∃ qid, queryLogsParsePhase
      (fun l => if l = "12" then some (JsValue.num 12) else none) "12" =
        .ok (emptyNdjsonResponse qid) :=
  c9_empty_result (fun l => if l = "12" then some (JsValue.num 12) else none) "12"
    (by decide) (by decide)

/-! ## The query_logs handler before the remote call (claims C3 and C10) -/

/-- ECMAScript new Date(string) never throws: an unparsable string yields an
Invalid Date (NaN time value — none here). Except Empty records that the
constructor has no exceptional exit at all. -/
def jsNewDateNoThrow (parse : String → Option Int) (s : String) :
    Except Empty (Option Int) := .ok (parse s)

/-- Source: the date-format try/catch of createQueryLogsHandler
(src/tools/query-logs.ts 258-267): construct both dates, discard the values,
map any exception to the badDateFormat error ("startDate and endDate must be
valid ISO 8601 date strings"). The constructor cannot throw, so the catch arm
is dead. -/
def validateCustomDateFormats (parse : String → Option Int) (s e : String) :
    Except QueryLogsError Unit :=
  match (do
    let _ ← jsNewDateNoThrow parse s
    let _ ← jsNewDateNoThrow parse e
    pure ()) with
  | .ok _ => .ok ()
  | .error _ => .error .badDateFormat

/-- Source type: CoralogixQueryRequest (src/types/index.ts 2-11), metadata
flattened; the source field named for the query language is dialectTag here. -/
structure CoralogixQueryRequest where
  query : String
  dialectTag : String
  startDate : String
  endDate : String
  limit : Int
  includeArchive : Bool
deriving DecidableEq

/-- Source: executeQueryLogs (src/tools/query-logs.ts 171-231) up to, and not
including, the remote call: build the context, validate pagination, compute
the offset, optimize the query, and serialize the range — the toISOString
calls are where an Invalid Date raises a RangeError before any request is
sent. -/
def buildRemoteRequest (fmt : Int → String) (parse : String → Option Int) (now : Int)
    (input : QueryLogsInput) : Except QueryLogsError CoralogixQueryRequest :=
  match buildQueryContext parse now input with
  | .error e => .error e
  | .ok context =>
    match validatePagination input.page input.limit with
    | .error e => .error e
    | .ok pl =>
      let offset := calculateOffset pl.page pl.limit
      match toISOString fmt context.timeStart with
      | .error e => .error e
      | .ok sd =>
        match toISOString fmt context.timeEnd with
        | .error e => .error e
        | .ok ed =>
          .ok { query := optimizeQuery context.originalQuery context.detectedDialect
                dialectTag :=
                  if context.detectedDialect = .lucene then "QUERY_SYNTAX_LUCENE"
                  else "QUERY_SYNTAX_DATAPRIME"
                startDate := sd
                endDate := ed
                limit := pl.limit + offset
                includeArchive := context.includeArchive }

/-- Source: createQueryLogsHandler (src/tools/query-logs.ts 236-271) composed
with the request-building prefix of executeQueryLogs: everything query_logs
does before any remote call. The handler's truthiness tests make an empty
string count as missing. -/
def createQueryLogsHandlerModel (fmt : Int → String) (parse : String → Option Int)
    (now : Int) (input : QueryLogsInput) : Except QueryLogsError CoralogixQueryRequest :=
  if input.query = "" then .error .invalidQuery
  else
    match ((if input.timeframe = some .custom then
      match input.startDate, input.endDate with
      | some s, some e =>
        if s = "" ∨ e = "" then .error .missingCustomDates
        else validateCustomDateFormats parse s e
      | _, _ => .error .missingCustomDates
     else .ok ()) : Except QueryLogsError Unit) with
    | .error e => .error e
    | .ok _ => buildRemoteRequest fmt parse now input

/-- Discriminator for the dead date-format error. -/
def isBadDateFormatErr {α : Type} : Except QueryLogsError α → Bool
  | .error .badDateFormat => true
  | _ => false

theorem buildQueryContext_error_kind (parse : String → Option Int) (now : Int)
    (input : QueryLogsInput) (er : QueryLogsError)
    (h : buildQueryContext parse now input = .error er) : er = .rangeTooWide := by
  simp only [buildQueryContext] at h
  split at h
  · cases h; rfl
  · cases h

theorem validatePagination_error_kind (p l : Option Int) (er : QueryLogsError)
    (h : validatePagination p l = .error er) : er = .pageOutOfRange := by
  simp only [validatePagination] at h
  split at h
  · cases h; rfl
  · cases h

theorem toISOString_error_kind (fmt : Int → String) (d : Option Int)
    (er : QueryLogsError) (h : toISOString fmt d = .error er) :
    er = .invalidTimeValue := by
  cases d with
  | some t => cases h
  | none => cases h; rfl

theorem buildRemoteRequest_not_badDate (fmt : Int → String)
    (parse : String → Option Int) (now : Int) (input : QueryLogsInput) :
    isBadDateFormatErr (buildRemoteRequest fmt parse now input) = false := by
  unfold buildRemoteRequest
  split <;> rename_i h1
  · rw [buildQueryContext_error_kind _ _ _ _ h1]; rfl
  · split <;> rename_i h2
    · rw [validatePagination_error_kind _ _ _ h2]; rfl
    · split <;> rename_i h3
      · rw [toISOString_error_kind _ _ _ h3]; rfl
      · split <;> rename_i h4
        · rw [toISOString_error_kind _ _ _ h4]; rfl
        · rfl

/-- C10: the date-format rejection of createQueryLogsHandler is unreachable.
For every parser behaviour and every pair of string inputs the try block
around the two Date constructions succeeds (the ECMAScript Date constructor
coerces unparsable strings to Invalid Date and never throws), so the
validation returns ok for all inputs — unparsable date strings pass — and no
input whatsoever makes the handler produce the badDateFormat error. -/
theorem c10_dead_date_validation (fmt : Int → String) (parse : String → Option Int)
    (now : Int) (input : QueryLogsInput) (s e : String) :
    validateCustomDateFormats parse s e = .ok () ∧
    isBadDateFormatErr (createQueryLogsHandlerModel fmt parse now input) = false := by
  constructor
  · rfl
  · unfold createQueryLogsHandlerModel
    split
    · rfl
    · split <;> rename_i hv
      · rename_i er
        split at hv
        · split at hv
          · split at hv
            · cases hv; rfl
            · cases hv
          · cases hv; rfl
        · cases hv
      · exact buildRemoteRequest_not_badDate fmt parse now input

/-- C3 evaluated at the failing input: with both custom dates present but
unparsable (the stand-in parser maps every string to Invalid Date, as
new Date does for these strings), the handler's date validation succeeds —
no InvalidInput error — and the pipeline instead reaches the toISOString
call, failing with the RangeError-backed invalidTimeValue long after
validation, still before any remote call. -/
theorem c3_unparsable_dates_not_rejected :
    validateCustomDateFormats (fun _ => none) "not-a-date" "also-not-a-date" = .ok () ∧
    createQueryLogsHandlerModel (fun _ => "") (fun _ => none) 0
      { query := "error", timeframe := some .custom, startDate := some "not-a-date",
        endDate := some "also-not-a-date" } = .error .invalidTimeValue := by
  exact ⟨rfl, by decide⟩

end CoralogixMcp
